import Mathlib

/-!
# LED pattern controller: timing engine

Shallow embedding of `src/Ledcontrol/LEDPatternController.cpp` (ESP32 Arduino
firmware) and the properties of its drift-corrected pattern scheduler.

Modelling conventions

* `unsigned long` and `unsigned int` are 32 bits on the target: they are
  natural numbers, and every operation that can wrap is written with an
  explicit reduction modulo `2^32`.
* `int` and `long` are 32 bits: they are integers, converted to unsigned
  with `toUnsigned`.
* `micros()` and `millis()` are inputs: every operation that reads a clock
  takes the value read (`now`, `ms`) as an argument.
* `digitalWrite` on the LED pin is an output: operations return the list of
  levels they wrote, in order.
* An Arduino `String` is the list of its characters; `charAt` outside the
  string yields the NUL character, as in the Arduino core. A `String` on the
  target is far shorter than `2^31` characters, so a value below its length
  is stored in an `int` without change.
* Integer division by zero traps on the target: an operation that would
  divide by zero returns `none`.
* Serial logging, the web page and the firmware update handlers do not touch
  the timing state and are not modelled.
-/

namespace LEDControl

/-! ## Machine arithmetic -/

/-- Number of values of a 32-bit unsigned integer. -/
def U32 : Nat := 4294967296

/-- Unsigned 32-bit subtraction `a - b`. -/
def u32Sub (a b : Nat) : Nat := (a % U32 + U32 - b % U32) % U32

/-- Unsigned 32-bit addition `a + b`. -/
def u32Add (a b : Nat) : Nat := (a + b) % U32

/-- Conversion of a signed 32-bit value (`int`, `long`) to `unsigned`. -/
def toUnsigned (v : Int) : Nat := (v % 4294967296).toNat

/-! ## Data model -/

/-- Level written to the LED pin by `digitalWrite`. The LED is active-low:
`LOW` lights it, `HIGH` turns it off. -/
inductive PinLevel where
  | LOW
  | HIGH
deriving DecidableEq, Repr

/-- Reply sent through `server->send(code, "text/plain", body)`. -/
structure Response where
  code : Nat
  body : String
deriving DecidableEq, Repr

/-- Data members of class `LEDPatternController` (the `server` pointer apart). -/
structure LEDPatternController where
  currentPattern : List Char
  currentIndex : Int
  lastPatternTime : Nat
  patternInterval : Nat
  ledPin : Int
  customFrequencyHz : Nat
  useCustomFrequency : Bool
  lastMicros : Nat
  softwareTimerActive : Bool
deriving DecidableEq, Repr

/-- Arduino `String::charAt`: the character at `loc`, NUL past the end. -/
def charAt (s : List Char) (loc : Nat) : Char := s.getD loc (Char.ofNat 0)

/-- Level that `executePattern` writes for a pattern character:
`'0'` gives `LOW` (LED on), anything else `HIGH` (LED off). -/
def bitLevel (currentBit : Char) : PinLevel :=
  if currentBit = '0' then PinLevel.LOW else PinLevel.HIGH

namespace LEDPatternController

/-- Constructor `LEDPatternController::LEDPatternController(server, ledPin, interval)`,
run when `micros()` reads `now` and `millis()` reads `ms`. It writes `HIGH`
(LED off) once. -/
def ctor (ledPin : Int) (interval : Nat) (now ms : Nat) :
    LEDPatternController × List PinLevel :=
  ({ currentPattern := ['1', '0', '1', '0']
     currentIndex := 0
     lastPatternTime := ms
     patternInterval := interval
     ledPin := ledPin
     customFrequencyHz := 2
     useCustomFrequency := false
     lastMicros := now
     softwareTimerActive := true },
   [PinLevel.HIGH])

/-- Method `setCustomFrequency(frequencyHz)`. -/
def setCustomFrequency (frequencyHz : Nat) (now ms : Nat) (c : LEDPatternController) :
    LEDPatternController :=
  let c1 : LEDPatternController :=
    if frequencyHz > 0 then
      { c with useCustomFrequency := true, customFrequencyHz := frequencyHz }
    else
      { c with useCustomFrequency := false, customFrequencyHz := 2 }
  { c1 with currentIndex := 0, lastMicros := now, lastPatternTime := ms }

/-- Method `executePattern()`, called when `micros()` reads `now`. The result
is the new state and the levels written to the LED pin; `none` is the
division trap of `1000000UL / customFrequencyHz`. -/
def executePattern (now : Nat) (c : LEDPatternController) :
    Option (LEDPatternController × List PinLevel) :=
  if c.currentPattern.length = 0 then some (c, [])
  else
    let currentMicros := now
    if c.customFrequencyHz = 0 then none
    else
      let intervalMicros := 1000000 / c.customFrequencyHz
      if u32Sub currentMicros c.lastMicros ≥ intervalMicros then
        let currentBit := charAt c.currentPattern (toUnsigned c.currentIndex)
        some ({ c with
                currentIndex :=
                  Int.ofNat (toUnsigned (c.currentIndex + 1) % c.currentPattern.length)
                lastMicros := u32Add c.lastMicros intervalMicros },
              [bitLevel currentBit])
      else some (c, [])

/-- Validation loop of `handlePatternUpdate`: scans the characters in order
and stops with `false` at the first one that is neither `'0'` nor `'1'`. -/
def validLoop : List Char → Bool
  | [] => true
  | ch :: rest => if ch ≠ '0' ∧ ch ≠ '1' then false else validLoop rest

/-- Method `handlePatternUpdate()`. `arg` is the request argument `pattern`,
`none` when the request has no such argument. -/
def handlePatternUpdate (arg : Option (List Char)) (now : Nat) (c : LEDPatternController) :
    LEDPatternController × Response :=
  match arg with
  | some newPattern =>
    let valid := validLoop newPattern
    if valid ∧ newPattern.length > 0 then
      ({ c with currentPattern := newPattern, currentIndex := 0, lastMicros := now },
       { code := 200, body := "OK" })
    else (c, { code := 400, body := "Invalid pattern" })
  | none => (c, { code := 400, body := "Missing pattern parameter" })

/-- Method `handleFrequencyUpdate()`. `arg` is the value `String::toInt`
returns for the request argument `frequency` (a `long`), `none` when the
request has no such argument. -/
def handleFrequencyUpdate (arg : Option Int) (now ms : Nat) (c : LEDPatternController) :
    LEDPatternController × Response :=
  match arg with
  | some parsed =>
    let frequency := toUnsigned parsed
    if frequency ≥ 1 ∧ frequency ≤ 100000 then
      (setCustomFrequency frequency now ms c, { code := 200, body := "OK" })
    else if frequency = 0 then
      (setCustomFrequency 0 now ms c, { code := 200, body := "OK" })
    else
      (c, { code := 400, body := "Invalid frequency! Range: 1-100000 Hz or 0 for default" })
  | none => (c, { code := 400, body := "Missing frequency parameter" })

/-- Method `resetTimingSync()`. -/
def resetTimingSync (now ms : Nat) (c : LEDPatternController) : LEDPatternController :=
  { c with lastPatternTime := ms, lastMicros := now }

/-- Runs `executePattern` once per clock reading of `ts`, in order, and logs
each write to the LED pin with the reading at which it happened. -/
def ticks : List Nat → LEDPatternController →
    Option (LEDPatternController × List (Nat × PinLevel))
  | [], c => some (c, [])
  | now :: rest, c =>
    match executePattern now c with
    | none => none
    | some (c1, out) =>
      match ticks rest c1 with
      | none => none
      | some (c2, log) => some (c2, out.map (fun l => (now, l)) ++ log)

/-- Whether every call of `executePattern` in the series `ts` writes a level
(is an emitting call). -/
def allEmit : List Nat → LEDPatternController → Bool
  | [], _ => true
  | now :: rest, c =>
    match executePattern now c with
    | some (c1, [_]) => allEmit rest c1
    | _ => false

end LEDPatternController

/-! ## Call sequences -/

/-- The public operations that change the timing state. -/
inductive Op where
  | executePattern
  | handlePatternUpdate (arg : Option (List Char))
  | handleFrequencyUpdate (arg : Option Int)
  | setCustomFrequency (frequencyHz : Nat)
  | resetTimingSync
deriving DecidableEq, Repr

/-- The operations of the spec: tick, set_sequence and set_frequency. -/
def Op.isCore : Op → Bool
  | Op.executePattern => true
  | Op.handlePatternUpdate _ => true
  | Op.handleFrequencyUpdate _ => true
  | Op.setCustomFrequency _ => false
  | Op.resetTimingSync => false

/-- One call: the operation and the clock values it reads. -/
structure Call where
  op : Op
  now : Nat
  ms : Nat
deriving DecidableEq, Repr

/-- Effect of one call on the state; `none` when the call traps. -/
def Call.apply (e : Call) (c : LEDPatternController) : Option LEDPatternController :=
  match e.op with
  | Op.executePattern => (c.executePattern e.now).map Prod.fst
  | Op.handlePatternUpdate arg => some (c.handlePatternUpdate arg e.now).1
  | Op.handleFrequencyUpdate arg => some (c.handleFrequencyUpdate arg e.now e.ms).1
  | Op.setCustomFrequency frequencyHz => some (c.setCustomFrequency frequencyHz e.now e.ms)
  | Op.resetTimingSync => some (c.resetTimingSync e.now e.ms)

/-- Effect of a series of calls, in order. -/
def runCalls : List Call → LEDPatternController → Option LEDPatternController
  | [], c => some c
  | e :: rest, c =>
    match e.apply c with
    | none => none
    | some c1 => runCalls rest c1

/-! ## Predicates used in the statements -/

/-- A pattern the configuration accepts: non-empty, every character `'0'` or `'1'`. -/
def ValidPattern (p : List Char) : Prop :=
  p ≠ [] ∧ ∀ ch ∈ p, ch = '0' ∨ ch = '1'

/-- The state invariant of the data model. -/
def StateInv (c : LEDPatternController) : Prop :=
  ValidPattern c.currentPattern ∧
  (0 ≤ c.currentIndex ∧ c.currentIndex < c.currentPattern.length) ∧
  ((c.useCustomFrequency = false ∧ c.customFrequencyHz = 2) ∨
   (c.useCustomFrequency = true ∧ 1 ≤ c.customFrequencyHz ∧ c.customFrequencyHz ≤ 100000))

/-- The levels written for `n` symbols of the pattern `p` read cyclically from
position `i`. -/
def cyclicLevels (p : List Char) (i n : Nat) : List PinLevel :=
  (List.range n).map (fun j => bitLevel (charAt p ((i + j) % p.length)))

/-- The levels written for `k` repetitions of the pattern `p`. -/
def repeatedLevels (p : List Char) (k : Nat) : List PinLevel :=
  ((List.replicate k p).flatten).map bitLevel

/-- The values a state of the C++ class can hold: every unsigned member is a
32-bit value, `currentIndex` is a 32-bit `int`, and the length of the pattern
is an `unsigned int`. -/
def InRange (c : LEDPatternController) : Prop :=
  c.currentPattern.length < U32 ∧
  (-2147483648 ≤ c.currentIndex ∧ c.currentIndex < 2147483648) ∧
  c.lastMicros < U32 ∧ c.customFrequencyHz < U32 ∧
  c.lastPatternTime < U32 ∧ c.patternInterval < U32

/-- A tick schedule after time `t0`: the readings are non-decreasing from
`t0`, consecutive readings (the first one and `t0` included) are at most `gap`
apart, and every reading is a 32-bit value. -/
def Cadence (gap t0 : Nat) (ts : List Nat) : Prop :=
  List.Chain (fun a b => a ≤ b ∧ b ≤ a + gap) t0 ts ∧ ∀ t ∈ ts, t < U32

/-- The tick schedule of a polling loop that calls `executePattern` every
millisecond: the readings `t0`, `t0 + 1000`, ..., `t0 + 1000 * n`. -/
def everyMillisecond (t0 n : Nat) : List Nat :=
  (List.range' 0 (n + 1)).map (fun j => t0 + 1000 * j)

/-- Time of the last tick of a schedule that starts at `t0`. -/
def lastTick (t0 : Nat) (ts : List Nat) : Nat := ts.getLastD t0

/-! ## Machine arithmetic: lemmas -/

theorem u32Sub_of_le {a b : Nat} (hab : b ≤ a) (ha : a < U32) : u32Sub a b = a - b := by
  unfold u32Sub U32 at *
  omega

theorem u32Add_of_lt {a b : Nat} (h : a + b < U32) : u32Add a b = a + b := by
  unfold u32Add
  exact Nat.mod_eq_of_lt h

theorem toUnsigned_of_nonneg {v : Int} (h0 : 0 ≤ v) (h1 : v < 4294967296) :
    toUnsigned v = v.toNat := by
  unfold toUnsigned
  rw [Int.emod_eq_of_lt h0 h1]

theorem toUnsigned_natCast {n : Nat} (h : n < 4294967296) : toUnsigned (n : Int) = n := by
  rw [toUnsigned_of_nonneg (Int.natCast_nonneg n) (by omega)]
  simp

/-! ## One call of `executePattern` -/

namespace LEDPatternController

theorem executePattern_empty (now : Nat) (c : LEDPatternController)
    (h : c.currentPattern = []) : executePattern now c = some (c, []) := by
  simp [executePattern, h]

theorem executePattern_idle (now : Nat) (c : LEDPatternController)
    (hf : c.customFrequencyHz ≠ 0)
    (h : u32Sub now c.lastMicros < 1000000 / c.customFrequencyHz) :
    executePattern now c = some (c, []) := by
  unfold executePattern
  by_cases hp : c.currentPattern.length = 0
  · simp [hp]
  · simp only [hp, hf, if_false]
    rw [if_neg (by omega)]

theorem executePattern_fire (now : Nat) (c : LEDPatternController)
    (hp : c.currentPattern ≠ []) (hf : c.customFrequencyHz ≠ 0)
    (h : 1000000 / c.customFrequencyHz ≤ u32Sub now c.lastMicros) :
    executePattern now c =
      some ({ c with
              currentIndex :=
                Int.ofNat (toUnsigned (c.currentIndex + 1) % c.currentPattern.length)
              lastMicros := u32Add c.lastMicros (1000000 / c.customFrequencyHz) },
            [bitLevel (charAt c.currentPattern (toUnsigned c.currentIndex))]) := by
  unfold executePattern
  have hl : c.currentPattern.length ≠ 0 := by
    intro h0
    exact hp (List.length_eq_zero.mp h0)
  simp only [hl, hf, if_false]
  rw [if_pos h]

theorem executePattern_isSome (now : Nat) (c : LEDPatternController)
    (h : c.customFrequencyHz ≠ 0 ∨ c.currentPattern = []) :
    (executePattern now c).isSome = true := by
  rcases h with h | h
  · by_cases hp : c.currentPattern = []
    · simp [executePattern_empty now c hp]
    · by_cases hd : 1000000 / c.customFrequencyHz ≤ u32Sub now c.lastMicros
      · simp [executePattern_fire now c hp h hd]
      · simp [executePattern_idle now c h (by omega)]
  · simp [executePattern_empty now c h]

end LEDPatternController

/-! ## Frequency is never zero along a series of calls -/

theorem setCustomFrequency_freq_ne_zero (frequencyHz now ms : Nat) (c : LEDPatternController) :
    (c.setCustomFrequency frequencyHz now ms).customFrequencyHz ≠ 0 := by
  unfold LEDPatternController.setCustomFrequency
  by_cases h : frequencyHz > 0
  · simp only [h, if_true]
    omega
  · simp [h]

theorem handleFrequencyUpdate_freq_ne_zero (arg : Option Int) (now ms : Nat)
    (c : LEDPatternController) (h : c.customFrequencyHz ≠ 0) :
    (c.handleFrequencyUpdate arg now ms).1.customFrequencyHz ≠ 0 := by
  unfold LEDPatternController.handleFrequencyUpdate
  cases arg with
  | none => exact h
  | some parsed =>
    simp only
    split
    · exact setCustomFrequency_freq_ne_zero _ _ _ _
    · split
      · exact setCustomFrequency_freq_ne_zero _ _ _ _
      · exact h

theorem handlePatternUpdate_freq (arg : Option (List Char)) (now : Nat)
    (c : LEDPatternController) :
    (c.handlePatternUpdate arg now).1.customFrequencyHz = c.customFrequencyHz ∧
    (c.handlePatternUpdate arg now).1.useCustomFrequency = c.useCustomFrequency := by
  unfold LEDPatternController.handlePatternUpdate
  cases arg with
  | none => exact ⟨rfl, rfl⟩
  | some newPattern =>
    simp only
    split
    · exact ⟨rfl, rfl⟩
    · exact ⟨rfl, rfl⟩

theorem executePattern_frame (now : Nat) (c c' : LEDPatternController) (out : List PinLevel)
    (h : c.executePattern now = some (c', out)) :
    c'.currentPattern = c.currentPattern ∧ c'.customFrequencyHz = c.customFrequencyHz ∧
    c'.useCustomFrequency = c.useCustomFrequency := by
  by_cases hp : c.currentPattern = []
  · rw [LEDPatternController.executePattern_empty now c hp] at h
    cases h
    exact ⟨rfl, rfl, rfl⟩
  · by_cases hf : c.customFrequencyHz = 0
    · have hl : c.currentPattern.length ≠ 0 := fun h0 => hp (List.length_eq_zero.mp h0)
      simp [LEDPatternController.executePattern, hl, hf] at h
    · by_cases hd : 1000000 / c.customFrequencyHz ≤ u32Sub now c.lastMicros
      · rw [LEDPatternController.executePattern_fire now c hp hf hd] at h
        cases h
        exact ⟨rfl, rfl, rfl⟩
      · rw [LEDPatternController.executePattern_idle now c hf (by omega)] at h
        cases h
        exact ⟨rfl, rfl, rfl⟩

theorem Call.apply_freq_ne_zero (e : Call) (c c' : LEDPatternController)
    (h : c.customFrequencyHz ≠ 0) (he : e.apply c = some c') : c'.customFrequencyHz ≠ 0 := by
  unfold Call.apply at he
  split at he
  · cases hx : c.executePattern e.now with
    | none => simp [hx] at he
    | some r =>
      obtain ⟨c1, out⟩ := r
      simp [hx] at he
      subst he
      rw [(executePattern_frame _ _ _ _ hx).2.1]
      exact h
  · cases he
    rw [(handlePatternUpdate_freq _ _ _).1]
    exact h
  · cases he
    exact handleFrequencyUpdate_freq_ne_zero _ _ _ _ h
  · cases he
    exact setCustomFrequency_freq_ne_zero _ _ _ _
  · cases he
    exact h

theorem runCalls_freq_ne_zero (calls : List Call) :
    ∀ c c' : LEDPatternController, c.customFrequencyHz ≠ 0 → runCalls calls c = some c' →
      c'.customFrequencyHz ≠ 0 := by
  induction calls with
  | nil =>
    intro c c' h hr
    simp [runCalls] at hr
    subst hr
    exact h
  | cons e rest ih =>
    intro c c' h hr
    unfold runCalls at hr
    cases he : e.apply c with
    | none => simp [he] at hr
    | some c1 =>
      simp only [he] at hr
      exact ih c1 c' (Call.apply_freq_ne_zero e c c1 h he) hr

theorem ctor_freq_ne_zero (ledPin : Int) (interval now ms : Nat) :
    (LEDPatternController.ctor ledPin interval now ms).1.customFrequencyHz ≠ 0 := by
  simp [LEDPatternController.ctor]

/-! ## Claims about one tick -/

/-- C6 (due tick). For every state of the class with a non-empty pattern, a
cursor inside it and a non-zero frequency, a call of `executePattern` at which
the unsigned difference `now - lastMicros` has reached the interval
`1000000 / customFrequencyHz` writes exactly one level: `LOW` (LED on) when
the character at the cursor is `'0'`, `HIGH` (LED off) when it is `'1'`. The
cursor becomes `(currentIndex + 1) mod length` (0 after the last character),
`lastMicros` grows by exactly one interval modulo `2^32`, and no other member
changes. -/
theorem executePattern_due_tick (c : LEDPatternController) (now : Nat)
    (hr : InRange c) (hp : c.currentPattern ≠ [])
    (hi : 0 ≤ c.currentIndex ∧ c.currentIndex < c.currentPattern.length)
    (hf : c.customFrequencyHz ≠ 0)
    (hdue : u32Sub now c.lastMicros ≥ 1000000 / c.customFrequencyHz) :
    ∃ c' lvl, c.executePattern now = some (c', [lvl]) ∧
      (c.currentPattern[c.currentIndex.toNat]? = some '0' → lvl = PinLevel.LOW) ∧
      (c.currentPattern[c.currentIndex.toNat]? = some '1' → lvl = PinLevel.HIGH) ∧
      c'.currentIndex = (c.currentIndex + 1) % c.currentPattern.length ∧
      (c.currentIndex + 1 = c.currentPattern.length → c'.currentIndex = 0) ∧
      c'.lastMicros = (c.lastMicros + 1000000 / c.customFrequencyHz) % U32 ∧
      c'.currentPattern = c.currentPattern ∧
      c'.customFrequencyHz = c.customFrequencyHz ∧
      c'.useCustomFrequency = c.useCustomFrequency ∧
      c' = { c with currentIndex := c'.currentIndex, lastMicros := c'.lastMicros } := by
  obtain ⟨_, ⟨_, hi31⟩, _⟩ := hr
  have hu : toUnsigned c.currentIndex = c.currentIndex.toNat :=
    toUnsigned_of_nonneg hi.1 (by omega)
  have hu1 : toUnsigned (c.currentIndex + 1) = c.currentIndex.toNat + 1 := by
    rw [toUnsigned_of_nonneg (by omega) (by omega)]
    omega
  have hnext : (Int.ofNat (toUnsigned (c.currentIndex + 1) % c.currentPattern.length)) =
      (c.currentIndex + 1) % c.currentPattern.length := by
    rw [hu1]
    have : (c.currentIndex + 1) = ((c.currentIndex.toNat + 1 : Nat) : Int) := by omega
    rw [this]
    simp
  refine ⟨_, _, LEDPatternController.executePattern_fire now c hp hf hdue, ?_, ?_, hnext, ?_,
    rfl, rfl, rfl, rfl, rfl⟩
  · intro h0
    rw [hu]
    simp [charAt, List.getD, h0, bitLevel]
  · intro h1
    rw [hu]
    simp [charAt, List.getD, h1, bitLevel]
  · intro hlast
    simp only
    rw [hnext, hlast]
    exact Int.emod_self

/-- Witness of C6: the state after the constructor, ticked at 500000 us. -/
theorem executePattern_due_tick_witness :
    ∃ c' lvl, (LEDPatternController.ctor 2 1000 0 0).1.executePattern 500000 = some (c', [lvl]) ∧
      lvl = PinLevel.HIGH ∧ c'.currentIndex = 1 ∧ c'.lastMicros = 500000 := by
  obtain ⟨c', lvl, h, _, h1, hi, _, hl, _⟩ :=
    executePattern_due_tick (LEDPatternController.ctor 2 1000 0 0).1 500000
      (by simp [InRange, LEDPatternController.ctor, U32])
      (by simp [LEDPatternController.ctor])
      (by simp [LEDPatternController.ctor])
      (by simp [LEDPatternController.ctor])
      (by decide)
  refine ⟨c', lvl, h, h1 (by simp [LEDPatternController.ctor]), ?_, ?_⟩
  · rw [hi]
    simp [LEDPatternController.ctor]
  · rw [hl]
    simp [LEDPatternController.ctor, U32]

theorem runCalls_total (calls : List Call) :
    ∀ c : LEDPatternController, c.customFrequencyHz ≠ 0 →
      ∃ c', runCalls calls c = some c' ∧ c'.customFrequencyHz ≠ 0 := by
  induction calls with
  | nil =>
    intro c h
    exact ⟨c, rfl, h⟩
  | cons e rest ih =>
    intro c h
    have hstep : ∃ c1, e.apply c = some c1 := by
      unfold Call.apply
      split
      · have hs := LEDPatternController.executePattern_isSome e.now c (Or.inl h)
        cases hx : c.executePattern e.now with
        | none => simp [hx] at hs
        | some r => exact ⟨r.1, rfl⟩
      · exact ⟨_, rfl⟩
      · exact ⟨_, rfl⟩
      · exact ⟨_, rfl⟩
      · exact ⟨_, rfl⟩
    obtain ⟨c1, h1⟩ := hstep
    obtain ⟨c', hc', hf'⟩ := ih c1 (Call.apply_freq_ne_zero e c c1 h h1)
    refine ⟨c', ?_, hf'⟩
    simp [runCalls, h1, hc']

/-- C7 (tick that is not due). A call of `executePattern` writes a level
exactly when the pattern is non-empty and the unsigned difference
`now - lastMicros` has reached `1000000 / customFrequencyHz`. When the pattern
is empty, or when that difference is below the interval, the call returns
with no write and with every member of the state unchanged. The call never
traps: not in a state with a non-zero frequency or an empty pattern, and so
not in any state that a series of public calls reaches from the constructor,
a series which itself always runs to its end. -/
theorem executePattern_not_due :
    (∀ (c : LEDPatternController) (now : Nat), c.currentPattern = [] →
        c.executePattern now = some (c, [])) ∧
    (∀ (c : LEDPatternController) (now : Nat), c.customFrequencyHz ≠ 0 →
        ¬ (u32Sub now c.lastMicros ≥ 1000000 / c.customFrequencyHz) →
        c.executePattern now = some (c, [])) ∧
    (∀ (c : LEDPatternController) (now : Nat), c.customFrequencyHz ≠ 0 →
        c.currentPattern ≠ [] →
        ((∃ c' lvl, c.executePattern now = some (c', [lvl])) ↔
          u32Sub now c.lastMicros ≥ 1000000 / c.customFrequencyHz)) ∧
    (∀ (c : LEDPatternController) (now : Nat),
        c.customFrequencyHz ≠ 0 ∨ c.currentPattern = [] →
        (c.executePattern now).isSome = true) ∧
    (∀ (calls : List Call) (ledPin : Int) (interval t0 ms0 : Nat),
        ∃ c, runCalls calls (LEDPatternController.ctor ledPin interval t0 ms0).1 = some c ∧
          ∀ now, (c.executePattern now).isSome = true) := by
  refine ⟨fun c now h => LEDPatternController.executePattern_empty now c h, ?_, ?_, ?_, ?_⟩
  · intro c now hf hnd
    exact LEDPatternController.executePattern_idle now c hf (by omega)
  · intro c now hf hp
    constructor
    · rintro ⟨c', lvl, h⟩
      by_contra hnd
      rw [LEDPatternController.executePattern_idle now c hf (by omega)] at h
      simp at h
    · intro hd
      exact ⟨_, _, LEDPatternController.executePattern_fire now c hp hf hd⟩
  · intro c now h
    exact LEDPatternController.executePattern_isSome now c h
  · intro calls ledPin interval t0 ms0
    obtain ⟨c, hc, hf⟩ := runCalls_total calls _ (ctor_freq_ne_zero ledPin interval t0 ms0)
    exact ⟨c, hc, fun now => LEDPatternController.executePattern_isSome now c (Or.inl hf)⟩

/-- Witness of C7: 100 us after the constructor the tick is not due. -/
theorem executePattern_not_due_witness :
    (LEDPatternController.ctor 2 1000 0 0).1.executePattern 100 =
      some ((LEDPatternController.ctor 2 1000 0 0).1, []) :=
  executePattern_not_due.2.1 (LEDPatternController.ctor 2 1000 0 0).1 100
    (by simp [LEDPatternController.ctor]) (by decide)

/-! ## Configuration: `set_sequence` -/

theorem validLoop_iff (p : List Char) :
    LEDPatternController.validLoop p = true ↔ ∀ ch ∈ p, ch = '0' ∨ ch = '1' := by
  induction p with
  | nil => simp [LEDPatternController.validLoop]
  | cons a rest ih =>
    unfold LEDPatternController.validLoop
    by_cases ha : a ≠ '0' ∧ a ≠ '1'
    · rw [if_pos ha]
      constructor
      · intro h
        cases h
      · intro h
        rcases h a (List.mem_cons_self a rest) with h0 | h1
        · exact absurd h0 ha.1
        · exact absurd h1 ha.2
    · rw [if_neg ha, ih]
      have ha' : a = '0' ∨ a = '1' := by
        by_contra hn
        exact ha ⟨fun h => hn (Or.inl h), fun h => hn (Or.inr h)⟩
      simp [ha']

theorem handlePatternUpdate_valid (c : LEDPatternController) (p : List Char) (now : Nat)
    (h : ValidPattern p) :
    c.handlePatternUpdate (some p) now =
      ({ c with currentPattern := p, currentIndex := 0, lastMicros := now },
       { code := 200, body := "OK" }) := by
  have hv : LEDPatternController.validLoop p = true := (validLoop_iff p).mpr h.2
  have hl : p.length > 0 := List.length_pos.mpr h.1
  simp [LEDPatternController.handlePatternUpdate, hv, hl]

theorem handlePatternUpdate_invalid (c : LEDPatternController) (p : List Char) (now : Nat)
    (h : ¬ ValidPattern p) :
    c.handlePatternUpdate (some p) now = (c, { code := 400, body := "Invalid pattern" }) := by
  have hn : ¬ (LEDPatternController.validLoop p = true ∧ p.length > 0) := by
    rintro ⟨hv, hl⟩
    exact h ⟨List.length_pos.mp hl, (validLoop_iff p).mp hv⟩
  unfold LEDPatternController.handlePatternUpdate
  simp only
  rw [if_neg hn]

/-- C3 (`set_sequence`). `handlePatternUpdate` with a pattern argument answers
200 exactly when the candidate is non-empty and every character is `'0'` or
`'1'`. On success `currentPattern` becomes the candidate, `currentIndex`
becomes 0, `lastMicros` becomes the clock reading, and every other member
(the frequency state included) keeps its value. On failure the answer is 400
and the state is unchanged; the empty string and `"012"` are such failures. -/
theorem handlePatternUpdate_set_sequence (c : LEDPatternController) (candidate : List Char)
    (now : Nat) :
    ((c.handlePatternUpdate (some candidate) now).2.code = 200 ↔ ValidPattern candidate) ∧
    (ValidPattern candidate →
      c.handlePatternUpdate (some candidate) now =
        ({ c with currentPattern := candidate, currentIndex := 0, lastMicros := now },
         { code := 200, body := "OK" })) ∧
    (¬ ValidPattern candidate →
      c.handlePatternUpdate (some candidate) now =
        (c, { code := 400, body := "Invalid pattern" })) ∧
    c.handlePatternUpdate (some []) now = (c, { code := 400, body := "Invalid pattern" }) ∧
    c.handlePatternUpdate (some ['0', '1', '2']) now =
      (c, { code := 400, body := "Invalid pattern" }) := by
  refine ⟨?_, handlePatternUpdate_valid c candidate now,
    handlePatternUpdate_invalid c candidate now, ?_, ?_⟩
  · by_cases h : ValidPattern candidate
    · simp [handlePatternUpdate_valid c candidate now h, h]
    · simp [handlePatternUpdate_invalid c candidate now h, h]
  · exact handlePatternUpdate_invalid c [] now (fun h => h.1 rfl)
  · refine handlePatternUpdate_invalid c _ now (fun h => ?_)
    have := h.2 '2' (by simp)
    revert this
    decide

/-- Witness of C3: the pattern `"0110"` sent to the state after the constructor. -/
theorem handlePatternUpdate_set_sequence_witness :
    ((LEDPatternController.ctor 2 1000 0 0).1.handlePatternUpdate
        (some ['0', '1', '1', '0']) 7).1.currentPattern = ['0', '1', '1', '0'] := by
  rw [(handlePatternUpdate_set_sequence (LEDPatternController.ctor 2 1000 0 0).1
    ['0', '1', '1', '0'] 7).2.1 ⟨by simp, by simp⟩]

/-! ## Configuration: `set_frequency` -/

theorem charAt_zero (p : List Char) (hp : p ≠ []) :
    charAt p (toUnsigned 0) = p.head hp := by
  cases p with
  | nil => exact absurd rfl hp
  | cons a rest => simp [charAt, toUnsigned]

/-- C4 (`set_frequency`). `handleFrequencyUpdate` on the parsed `long` value
`hz`, converted to `unsigned long`: for `hz = 0` the state becomes default
mode (`useCustomFrequency = false`, `customFrequencyHz = 2`); for
`1 ≤ hz ≤ 100000` it becomes custom mode with `customFrequencyHz = hz`. In
both cases the answer is 200, `currentIndex` becomes 0, `lastMicros` becomes
the clock reading, `lastPatternTime` the millisecond reading, and
`currentPattern` with the remaining members is unchanged. For every other
`long` value (100001 and -1 among them) the answer is 400 and the state is
unchanged. -/
theorem handleFrequencyUpdate_set_frequency (c : LEDPatternController) (hz : Int)
    (now ms : Nat) (hlong : -2147483648 ≤ hz ∧ hz < 2147483648) :
    (hz = 0 →
      c.handleFrequencyUpdate (some hz) now ms =
        ({ c with useCustomFrequency := false, customFrequencyHz := 2, currentIndex := 0,
                  lastMicros := now, lastPatternTime := ms },
         { code := 200, body := "OK" })) ∧
    (1 ≤ hz ∧ hz ≤ 100000 →
      c.handleFrequencyUpdate (some hz) now ms =
        ({ c with useCustomFrequency := true, customFrequencyHz := hz.toNat, currentIndex := 0,
                  lastMicros := now, lastPatternTime := ms },
         { code := 200, body := "OK" })) ∧
    (¬ (0 ≤ hz ∧ hz ≤ 100000) →
      (c.handleFrequencyUpdate (some hz) now ms).1 = c ∧
      (c.handleFrequencyUpdate (some hz) now ms).2.code = 400) ∧
    (c.handleFrequencyUpdate (some 100001) now ms).1 = c ∧
    (c.handleFrequencyUpdate (some 100001) now ms).2.code = 400 ∧
    (c.handleFrequencyUpdate (some (-1)) now ms).1 = c ∧
    (c.handleFrequencyUpdate (some (-1)) now ms).2.code = 400 ∧
    toUnsigned (-1) = 4294967295 := by
  refine ⟨?_, ?_, ?_, ?_, ?_, ?_, ?_, ?_⟩
  · intro h0
    subst h0
    simp [LEDPatternController.handleFrequencyUpdate, LEDPatternController.setCustomFrequency,
      toUnsigned]
  · intro h
    have hu : toUnsigned hz = hz.toNat := toUnsigned_of_nonneg (by omega) (by omega)
    have h1 : hz.toNat ≥ 1 ∧ hz.toNat ≤ 100000 := by omega
    have h2 : hz.toNat > 0 := by omega
    unfold LEDPatternController.handleFrequencyUpdate
    simp only [hu]
    rw [if_pos h1]
    unfold LEDPatternController.setCustomFrequency
    simp only [h2, if_true]
  · intro h
    have hu : ¬ (toUnsigned hz ≥ 1 ∧ toUnsigned hz ≤ 100000) ∧ ¬ toUnsigned hz = 0 := by
      unfold toUnsigned
      omega
    unfold LEDPatternController.handleFrequencyUpdate
    simp only
    rw [if_neg hu.1, if_neg hu.2]
    exact ⟨rfl, rfl⟩
  · simp [LEDPatternController.handleFrequencyUpdate, toUnsigned]
  · simp [LEDPatternController.handleFrequencyUpdate, toUnsigned]
  · simp [LEDPatternController.handleFrequencyUpdate, toUnsigned]
  · simp [LEDPatternController.handleFrequencyUpdate, toUnsigned]
  · decide

/-- Witness of C4: 50 Hz requested in the state after the constructor. -/
theorem handleFrequencyUpdate_set_frequency_witness :
    ((LEDPatternController.ctor 2 1000 0 0).1.handleFrequencyUpdate (some 50) 9 0).1.customFrequencyHz
      = 50 := by
  rw [(handleFrequencyUpdate_set_frequency (LEDPatternController.ctor 2 1000 0 0).1 50 9 0
    (by decide)).2.1 (by decide)]
  rfl

/-- C5 (reconfiguration resets the phase). In every state with a non-empty
pattern, whatever the cursor, `handleFrequencyUpdate` with the value 10 at
clock reading `t0` answers 200 and leaves `currentIndex = 0`,
`lastMicros = t0` and an interval of `1000000 / 10 = 100000` us. For every
later reading `now` of the 32-bit clock, the next `executePattern` writes a
level if and only if `now - t0 ≥ 100000`; the level it writes is the one of
the first character of the pattern, and before that the call changes
nothing. -/
theorem set_frequency_resets_phase (c : LEDPatternController) (t0 ms now : Nat)
    (hp : c.currentPattern ≠ []) (h0 : t0 ≤ now) (hn : now < U32) :
    (c.handleFrequencyUpdate (some 10) t0 ms).2.code = 200 ∧
    (c.handleFrequencyUpdate (some 10) t0 ms).1.currentIndex = 0 ∧
    (c.handleFrequencyUpdate (some 10) t0 ms).1.lastMicros = t0 ∧
    (c.handleFrequencyUpdate (some 10) t0 ms).1.currentPattern = c.currentPattern ∧
    1000000 / (c.handleFrequencyUpdate (some 10) t0 ms).1.customFrequencyHz = 100000 ∧
    ((∃ c2 lvl, (c.handleFrequencyUpdate (some 10) t0 ms).1.executePattern now =
        some (c2, [lvl])) ↔ now - t0 ≥ 100000) ∧
    (now - t0 ≥ 100000 →
      ∃ c2, (c.handleFrequencyUpdate (some 10) t0 ms).1.executePattern now =
        some (c2, [bitLevel (c.currentPattern.head hp)])) ∧
    (now - t0 < 100000 →
      (c.handleFrequencyUpdate (some 10) t0 ms).1.executePattern now =
        some ((c.handleFrequencyUpdate (some 10) t0 ms).1, [])) := by
  have hc : c.handleFrequencyUpdate (some 10) t0 ms =
      ({ c with useCustomFrequency := true, customFrequencyHz := 10, currentIndex := 0,
                lastMicros := t0, lastPatternTime := ms },
       { code := 200, body := "OK" }) := by
    simp [LEDPatternController.handleFrequencyUpdate, LEDPatternController.setCustomFrequency,
      toUnsigned]
  have e1 : (c.handleFrequencyUpdate (some 10) t0 ms).1.currentIndex = 0 := by rw [hc]
  have e2 : (c.handleFrequencyUpdate (some 10) t0 ms).1.lastMicros = t0 := by rw [hc]
  have e3 : (c.handleFrequencyUpdate (some 10) t0 ms).1.customFrequencyHz = 10 := by rw [hc]
  have e4 : (c.handleFrequencyUpdate (some 10) t0 ms).1.currentPattern = c.currentPattern := by
    rw [hc]
  have e5 : (c.handleFrequencyUpdate (some 10) t0 ms).2.code = 200 := by rw [hc]
  have hsub : u32Sub now t0 = now - t0 := u32Sub_of_le h0 hn
  have hhead : charAt c.currentPattern (toUnsigned 0) = c.currentPattern.head hp :=
    charAt_zero c.currentPattern hp
  have hfire : now - t0 ≥ 100000 →
      ∃ c2, (c.handleFrequencyUpdate (some 10) t0 ms).1.executePattern now =
        some (c2, [bitLevel (c.currentPattern.head hp)]) := by
    intro hd
    have hx := LEDPatternController.executePattern_fire now
      (c.handleFrequencyUpdate (some 10) t0 ms).1 (by rw [e4]; exact hp)
      (by rw [e3]; decide) (by rw [e3, e2, hsub]; omega)
    rw [e1, e4, hhead] at hx
    exact ⟨_, hx⟩
  have hidle : now - t0 < 100000 →
      (c.handleFrequencyUpdate (some 10) t0 ms).1.executePattern now =
        some ((c.handleFrequencyUpdate (some 10) t0 ms).1, []) := by
    intro hd
    exact LEDPatternController.executePattern_idle now _ (by rw [e3]; decide)
      (by rw [e3, e2, hsub]; omega)
  refine ⟨e5, e1, e2, e4, by rw [e3], ?_, hfire, hidle⟩
  constructor
  · rintro ⟨c2, lvl, h⟩
    by_contra hnd
    rw [hidle (by omega)] at h
    simp at h
  · intro hd
    obtain ⟨c2, h2⟩ := hfire hd
    exact ⟨c2, _, h2⟩

/-- Witness of C5: 10 Hz set at 1000 us mid-cycle, next tick at 101000 us. -/
theorem set_frequency_resets_phase_witness :
    ∃ c2, ({ (LEDPatternController.ctor 2 1000 0 0).1 with currentIndex := 3
            }.handleFrequencyUpdate (some 10) 1000 1).1.executePattern 101000 =
      some (c2, [PinLevel.HIGH]) :=
  (set_frequency_resets_phase { (LEDPatternController.ctor 2 1000 0 0).1 with currentIndex := 3 }
    1000 1 101000 (by simp [LEDPatternController.ctor]) (by decide) (by decide)).2.2.2.2.2.2.1
    (by decide)

/-! ## The state invariant -/

theorem ctor_stateInv (ledPin : Int) (interval now ms : Nat) :
    StateInv (LEDPatternController.ctor ledPin interval now ms).1 := by
  refine ⟨⟨by simp [LEDPatternController.ctor], ?_⟩, ?_, ?_⟩
  · intro ch hch
    simp only [LEDPatternController.ctor, List.mem_cons, List.mem_singleton] at hch
    rcases hch with h | h | h | h | h
    · exact Or.inr h
    · exact Or.inl h
    · exact Or.inr h
    · exact Or.inl h
    · cases h
  · simp [LEDPatternController.ctor]
  · exact Or.inl ⟨rfl, rfl⟩

theorem executePattern_stateInv (now : Nat) (c c' : LEDPatternController) (out : List PinLevel)
    (hinv : StateInv c) (h : c.executePattern now = some (c', out)) : StateInv c' := by
  obtain ⟨hv, hi, hfreq⟩ := hinv
  have hp : c.currentPattern ≠ [] := hv.1
  have hf : c.customFrequencyHz ≠ 0 := by
    rcases hfreq with ⟨_, h2⟩ | ⟨_, h1, _⟩
    · omega
    · omega
  by_cases hd : 1000000 / c.customFrequencyHz ≤ u32Sub now c.lastMicros
  · rw [LEDPatternController.executePattern_fire now c hp hf hd] at h
    cases h
    refine ⟨hv, ?_, hfreq⟩
    have hl : 0 < c.currentPattern.length := List.length_pos.mpr hp
    have hm := Nat.mod_lt (toUnsigned (c.currentIndex + 1)) hl
    simp only [Int.ofNat_eq_coe]
    constructor
    · exact Int.natCast_nonneg _
    · exact Int.ofNat_lt.mpr hm
  · rw [LEDPatternController.executePattern_idle now c hf (by omega)] at h
    cases h
    exact ⟨hv, hi, hfreq⟩

theorem handlePatternUpdate_stateInv (arg : Option (List Char)) (now : Nat)
    (c : LEDPatternController) (hinv : StateInv c) :
    StateInv (c.handlePatternUpdate arg now).1 := by
  cases arg with
  | none => exact hinv
  | some p =>
    by_cases hv : ValidPattern p
    · rw [handlePatternUpdate_valid c p now hv]
      refine ⟨hv, ⟨le_refl 0, ?_⟩, hinv.2.2⟩
      have hl : 0 < p.length := List.length_pos.mpr hv.1
      simp only
      exact Int.ofNat_lt.mpr hl
    · rw [handlePatternUpdate_invalid c p now hv]
      exact hinv

theorem setCustomFrequency_stateInv (frequencyHz now ms : Nat) (c : LEDPatternController)
    (hinv : StateInv c) (hle : frequencyHz ≤ 100000) :
    StateInv (c.setCustomFrequency frequencyHz now ms) := by
  obtain ⟨hv, _, _⟩ := hinv
  have hl : 0 < c.currentPattern.length := List.length_pos.mpr hv.1
  unfold LEDPatternController.setCustomFrequency
  by_cases h : frequencyHz > 0
  · simp only [h, if_true]
    exact ⟨hv, ⟨le_refl 0, Int.ofNat_lt.mpr hl⟩, Or.inr ⟨rfl, h, hle⟩⟩
  · simp only [h, if_false]
    exact ⟨hv, ⟨le_refl 0, Int.ofNat_lt.mpr hl⟩, Or.inl ⟨rfl, rfl⟩⟩

theorem handleFrequencyUpdate_stateInv (arg : Option Int) (now ms : Nat)
    (c : LEDPatternController) (hinv : StateInv c) :
    StateInv (c.handleFrequencyUpdate arg now ms).1 := by
  unfold LEDPatternController.handleFrequencyUpdate
  cases arg with
  | none => exact hinv
  | some parsed =>
    simp only
    split
    · rename_i h
      exact setCustomFrequency_stateInv _ _ _ _ hinv h.2
    · split
      · exact setCustomFrequency_stateInv _ _ _ _ hinv (by omega)
      · exact hinv

theorem stateInv_freq_ne_zero (c : LEDPatternController) (hinv : StateInv c) :
    c.customFrequencyHz ≠ 0 := by
  rcases hinv.2.2 with ⟨_, h2⟩ | ⟨_, h1, _⟩
  · omega
  · omega

theorem runCalls_stateInv (calls : List Call) :
    ∀ c : LEDPatternController, StateInv c → (∀ e ∈ calls, e.op.isCore = true) →
      ∃ c', runCalls calls c = some c' ∧ StateInv c' := by
  induction calls with
  | nil =>
    intro c h _
    exact ⟨c, rfl, h⟩
  | cons e rest ih =>
    intro c h hcore
    have hstep : ∃ c1, e.apply c = some c1 ∧ StateInv c1 := by
      have he := hcore e (List.mem_cons_self e rest)
      unfold Call.apply
      split
      · have hs := LEDPatternController.executePattern_isSome e.now c
          (Or.inl (stateInv_freq_ne_zero c h))
        cases hx : c.executePattern e.now with
        | none => simp [hx] at hs
        | some r => exact ⟨r.1, rfl, executePattern_stateInv e.now c r.1 r.2 h hx⟩
      · exact ⟨_, rfl, handlePatternUpdate_stateInv _ _ _ h⟩
      · exact ⟨_, rfl, handleFrequencyUpdate_stateInv _ _ _ _ h⟩
      · rename_i heq
        rw [heq] at he
        simp [Op.isCore] at he
      · rename_i heq
        rw [heq] at he
        simp [Op.isCore] at he
    obtain ⟨c1, h1, hinv1⟩ := hstep
    obtain ⟨c', hc', hinv'⟩ := ih c1 hinv1
      (fun e' he' => hcore e' (List.mem_cons_of_mem e he'))
    refine ⟨c', ?_, hinv'⟩
    simp [runCalls, h1, hc']

/-- C8 (state invariant). Every series of `executePattern`,
`handlePatternUpdate` and `handleFrequencyUpdate` calls, with arbitrary
arguments and clock readings, runs to its end from the state the constructor
builds, and the state it reaches has a pattern of length at least 1 made of
`'0'` and `'1'`, a cursor with `0 ≤ currentIndex < length`, and a frequency
state that is either default (`useCustomFrequency = false`, 2 Hz) or custom
with `customFrequencyHz` in `[1, 100000]`. Hence the index that
`executePattern` and the status page pass to `charAt` is inside the pattern
and the character read is `'0'` or `'1'`. -/
theorem state_invariant (calls : List Call) (ledPin : Int) (interval t0 ms0 : Nat)
    (hcore : ∀ e ∈ calls, e.op.isCore = true) :
    ∃ c, runCalls calls (LEDPatternController.ctor ledPin interval t0 ms0).1 = some c ∧
      StateInv c ∧
      toUnsigned c.currentIndex < c.currentPattern.length ∧
      (charAt c.currentPattern (toUnsigned c.currentIndex) = '0' ∨
       charAt c.currentPattern (toUnsigned c.currentIndex) = '1') := by
  obtain ⟨c, hc, hinv⟩ :=
    runCalls_stateInv calls _ (ctor_stateInv ledPin interval t0 ms0) hcore
  have hlt : toUnsigned c.currentIndex < c.currentPattern.length := by
    have h1 := hinv.2.1
    unfold toUnsigned
    omega
  refine ⟨c, hc, hinv, hlt, ?_⟩
  have hmem : charAt c.currentPattern (toUnsigned c.currentIndex) ∈ c.currentPattern := by
    unfold charAt
    rw [List.getD_eq_getElem _ _ hlt]
    exact List.getElem_mem hlt
  exact hinv.1.2 _ hmem

/-- Witness of C8: a tick, a pattern update, a rejected and an accepted
frequency update, and a due tick. -/
theorem state_invariant_witness :
    ∃ c, runCalls
        [⟨Op.executePattern, 600000, 600⟩, ⟨Op.handlePatternUpdate (some ['0', '1', '1']), 700000, 700⟩,
         ⟨Op.handleFrequencyUpdate (some 100001), 800000, 800⟩,
         ⟨Op.handleFrequencyUpdate (some 4), 900000, 900⟩,
         ⟨Op.executePattern, 1150000, 1150⟩]
        (LEDPatternController.ctor 2 1000 0 0).1 = some c ∧ StateInv c := by
  obtain ⟨c, hc, hinv, _⟩ := state_invariant
    [⟨Op.executePattern, 600000, 600⟩, ⟨Op.handlePatternUpdate (some ['0', '1', '1']), 700000, 700⟩,
     ⟨Op.handleFrequencyUpdate (some 100001), 800000, 800⟩,
     ⟨Op.handleFrequencyUpdate (some 4), 900000, 900⟩,
     ⟨Op.executePattern, 1150000, 1150⟩] 2 1000 0 0 (by decide)
  exact ⟨c, hc, hinv⟩

/-! ## The deadline stays behind the clock -/

theorem Call.apply_lastMicros_le (e : Call) (c c' : LEDPatternController) (prev : Nat)
    (hf : c.customFrequencyHz ≠ 0) (hle : c.lastMicros ≤ prev) (hprev : prev ≤ e.now)
    (hnow : e.now < U32) (he : e.apply c = some c') : c'.lastMicros ≤ e.now := by
  unfold Call.apply at he
  split at he
  · cases hx : c.executePattern e.now with
    | none => simp [hx] at he
    | some r =>
      obtain ⟨c1, out⟩ := r
      simp [hx] at he
      subst he
      by_cases hp : c.currentPattern = []
      · rw [LEDPatternController.executePattern_empty e.now c hp] at hx
        cases hx
        omega
      · have hsub : u32Sub e.now c.lastMicros = e.now - c.lastMicros :=
          u32Sub_of_le (by omega) hnow
        by_cases hd : 1000000 / c.customFrequencyHz ≤ u32Sub e.now c.lastMicros
        · rw [LEDPatternController.executePattern_fire e.now c hp hf hd] at hx
          cases hx
          simp only
          rw [hsub] at hd
          rw [u32Add_of_lt (by omega)]
          omega
        · rw [LEDPatternController.executePattern_idle e.now c hf (by omega)] at hx
          cases hx
          omega
  · cases he
    rename_i arg _
    cases arg with
    | none => exact le_trans hle hprev
    | some p =>
      by_cases hv : ValidPattern p
      · rw [handlePatternUpdate_valid c p e.now hv]
      · rw [handlePatternUpdate_invalid c p e.now hv]
        exact le_trans hle hprev
  · cases he
    rename_i arg _
    unfold LEDPatternController.handleFrequencyUpdate
    cases arg with
    | none => exact le_trans hle hprev
    | some parsed =>
      simp only
      split
      · exact le_refl _
      · split
        · exact le_refl _
        · exact le_trans hle hprev
  · cases he
    exact le_refl _
  · cases he
    exact le_refl _

theorem runCalls_lastMicros_le (calls : List Call) :
    ∀ (c : LEDPatternController) (prev : Nat), c.customFrequencyHz ≠ 0 →
      c.lastMicros ≤ prev →
      List.Chain (fun a b => a ≤ b) prev (calls.map Call.now) →
      (∀ e ∈ calls, e.now < U32) →
      ∃ c', runCalls calls c = some c' ∧ c'.customFrequencyHz ≠ 0 ∧
        c'.lastMicros ≤ (calls.map Call.now).getLastD prev := by
  induction calls with
  | nil =>
    intro c prev hf hle _ _
    exact ⟨c, rfl, hf, hle⟩
  | cons e rest ih =>
    intro c prev hf hle hchain hbound
    simp only [List.map_cons, List.chain_cons] at hchain
    obtain ⟨c1, h1, _⟩ := runCalls_total [e] c hf
    have h1' : e.apply c = some c1 := by
      cases hx : e.apply c with
      | none => simp [runCalls, hx] at h1
      | some c2 =>
        simp [runCalls, hx] at h1
        rw [h1]
    have hf1 := Call.apply_freq_ne_zero e c c1 hf h1'
    have hle1 := Call.apply_lastMicros_le e c c1 prev hf hle hchain.1
      (hbound e (List.mem_cons_self e rest)) h1'
    obtain ⟨c', hc', hf', hle'⟩ := ih c1 e.now hf1 hle1 hchain.2
      (fun e' he' => hbound e' (List.mem_cons_of_mem e he'))
    refine ⟨c', ?_, hf', ?_⟩
    · simp [runCalls, h1', hc']
    · rw [List.map_cons, List.getLastD_cons]
      exact hle'

/-- C10 (the deadline never overtakes the clock). Every series of public
calls (`executePattern`, `handlePatternUpdate`, `handleFrequencyUpdate`,
`setCustomFrequency`, `resetTimingSync`, with arbitrary arguments) made
after the constructor at non-decreasing readings of the 32-bit clock runs to
its end, and in the state it reaches `lastMicros` is at most the reading of
the last call (of the constructor when there is no call). As this holds for
every series it holds after each call of a series. Consequently, at every
later reading `now` the unsigned subtraction `now - lastMicros` of
`executePattern` is the true difference: it does not wrap. -/
theorem deadline_never_overtakes_clock (calls : List Call) (ledPin : Int)
    (interval t0 ms0 : Nat)
    (hmono : List.Chain (fun a b => a ≤ b) t0 (calls.map Call.now))
    (hclock : ∀ e ∈ calls, e.now < U32) :
    ∃ c, runCalls calls (LEDPatternController.ctor ledPin interval t0 ms0).1 = some c ∧
      c.lastMicros ≤ (calls.map Call.now).getLastD t0 ∧
      ∀ now, (calls.map Call.now).getLastD t0 ≤ now → now < U32 →
        c.lastMicros ≤ now ∧ u32Sub now c.lastMicros = now - c.lastMicros := by
  obtain ⟨c, hc, _, hle⟩ := runCalls_lastMicros_le calls
    (LEDPatternController.ctor ledPin interval t0 ms0).1 t0
    (ctor_freq_ne_zero ledPin interval t0 ms0) (le_refl t0) hmono hclock
  refine ⟨c, hc, hle, ?_⟩
  intro now hnow hlt
  exact ⟨le_trans hle hnow, u32Sub_of_le (le_trans hle hnow) hlt⟩

/-- Witness of C10: a late tick, a direct `setCustomFrequency` above the
accepted range, a tick and a timing reset. -/
theorem deadline_never_overtakes_clock_witness :
    ∃ c, runCalls
        [⟨Op.executePattern, 1700000, 1700⟩, ⟨Op.setCustomFrequency 2000000, 1800000, 1800⟩,
         ⟨Op.executePattern, 1800000, 1800⟩, ⟨Op.resetTimingSync, 1900000, 1900⟩]
        (LEDPatternController.ctor 2 1000 0 0).1 = some c ∧ c.lastMicros ≤ 1900000 := by
  obtain ⟨c, hc, hle, _⟩ := deadline_never_overtakes_clock
    [⟨Op.executePattern, 1700000, 1700⟩, ⟨Op.setCustomFrequency 2000000, 1800000, 1800⟩,
     ⟨Op.executePattern, 1800000, 1800⟩, ⟨Op.resetTimingSync, 1900000, 1900⟩]
    2 1000 0 0 (by simp) (by simp [U32])
  exact ⟨c, hc, hle⟩

/-! ## Series of ticks: the drift bound -/

theorem executePattern_cases (now : Nat) (c : LEDPatternController)
    (hf : c.customFrequencyHz ≠ 0) :
    (c.executePattern now = some (c, []) ∧
      (c.currentPattern = [] ∨ u32Sub now c.lastMicros < 1000000 / c.customFrequencyHz)) ∨
    (∃ c1, c.executePattern now =
        some (c1, [bitLevel (charAt c.currentPattern (toUnsigned c.currentIndex))]) ∧
      c.currentPattern ≠ [] ∧ 1000000 / c.customFrequencyHz ≤ u32Sub now c.lastMicros ∧
      c1.lastMicros = u32Add c.lastMicros (1000000 / c.customFrequencyHz) ∧
      c1.currentIndex =
        Int.ofNat (toUnsigned (c.currentIndex + 1) % c.currentPattern.length) ∧
      c1.currentPattern = c.currentPattern ∧
      c1.customFrequencyHz = c.customFrequencyHz) := by
  by_cases hp : c.currentPattern = []
  · exact Or.inl ⟨LEDPatternController.executePattern_empty now c hp, Or.inl hp⟩
  · by_cases hd : 1000000 / c.customFrequencyHz ≤ u32Sub now c.lastMicros
    · exact Or.inr ⟨_, LEDPatternController.executePattern_fire now c hp hf hd, hp, hd,
        rfl, rfl, rfl, rfl⟩
    · exact Or.inl ⟨LEDPatternController.executePattern_idle now c hf (by omega),
        Or.inr (by omega)⟩

theorem ticks_cons_idle (now : Nat) (rest : List Nat) (c : LEDPatternController)
    (h : c.executePattern now = some (c, [])) :
    c.ticks (now :: rest) = c.ticks rest := by
  simp only [LEDPatternController.ticks, h, List.map_nil, List.nil_append]
  cases c.ticks rest with
  | none => rfl
  | some r => rfl

theorem ticks_cons_fire (now : Nat) (rest : List Nat) (c c1 c' : LEDPatternController)
    (lvl : PinLevel) (log : List (Nat × PinLevel))
    (h : c.executePattern now = some (c1, [lvl])) (hrest : c1.ticks rest = some (c', log)) :
    c.ticks (now :: rest) = some (c', (now, lvl) :: log) := by
  simp only [LEDPatternController.ticks, h, hrest, List.map_cons, List.map_nil,
    List.singleton_append]

theorem ticks_lastMicros (ts : List Nat) :
    ∀ c : LEDPatternController, c.customFrequencyHz ≠ 0 → c.lastMicros < U32 →
      ∃ c' log, c.ticks ts = some (c', log) ∧ log.length ≤ ts.length ∧
        (LEDPatternController.allEmit ts c = true → log.length = ts.length) ∧
        c'.lastMicros =
          (c.lastMicros + log.length * (1000000 / c.customFrequencyHz)) % U32 := by
  induction ts with
  | nil =>
    intro c _ hlt
    refine ⟨c, [], rfl, le_refl _, fun _ => rfl, ?_⟩
    simp [Nat.mod_eq_of_lt hlt]
  | cons now rest ih =>
    intro c hf hlt
    rcases executePattern_cases now c hf with ⟨h, _⟩ | ⟨c1, h, _, _, hl1, _, _, hf1⟩
    · obtain ⟨c', log, hrun, hlen, _, hlast⟩ := ih c hf hlt
      refine ⟨c', log, ?_, ?_, ?_, hlast⟩
      · rw [ticks_cons_idle now rest c h]
        exact hrun
      · simp only [List.length_cons]
        omega
      · intro hall
        simp [LEDPatternController.allEmit, h] at hall
    · have hlt1 : c1.lastMicros < U32 := by
        rw [hl1]
        exact Nat.mod_lt _ (by decide)
      obtain ⟨c', log, hrun, hlen, hall', hlast⟩ := ih c1 (by rw [hf1]; exact hf) hlt1
      refine ⟨c', (now, bitLevel (charAt c.currentPattern (toUnsigned c.currentIndex))) :: log,
        ticks_cons_fire now rest c c1 c' _ log h hrun, ?_, ?_, ?_⟩
      · simp only [List.length_cons]
        omega
      · intro hall
        simp only [LEDPatternController.allEmit, h] at hall
        simp only [List.length_cons]
        rw [hall' hall]
      · rw [hlast, hl1, hf1]
        simp only [List.length_cons, u32Add, U32, Nat.succ_mul]
        omega

theorem allEmit_cons_freq_ne_zero (now : Nat) (rest : List Nat) (c : LEDPatternController)
    (h : LEDPatternController.allEmit (now :: rest) c = true) : c.customFrequencyHz ≠ 0 := by
  intro h0
  by_cases hp : c.currentPattern = []
  · simp [LEDPatternController.allEmit, LEDPatternController.executePattern_empty now c hp] at h
  · have hl : c.currentPattern.length ≠ 0 := fun hz => hp (List.length_eq_zero.mp hz)
    have hx : c.executePattern now = none := by
      simp [LEDPatternController.executePattern, hl, h0]
    simp [LEDPatternController.allEmit, hx] at h

/-- C2 (drift bound). From every state of the class, for every `N` and every
choice of the `N` clock readings: when each of the `N` consecutive
`executePattern` calls writes a level, the calls run to their end and
`lastMicros` ends at
`(initial lastMicros + N * (1000000 / customFrequencyHz)) mod 2^32`. The
value depends on the readings through `N` only: two series of `N` emitting
calls end with the same `lastMicros`, and it is not the last reading (the
initial deadline plus the sum of the observed gaps) unless the two agree.
More generally, when the frequency is not zero, after any series of calls
`lastMicros` has advanced by one interval per level written. -/
theorem drift_bound (c : LEDPatternController) (hr : InRange c) :
    (∀ ts : List Nat, LEDPatternController.allEmit ts c = true →
      ∃ c' log, c.ticks ts = some (c', log) ∧ log.length = ts.length ∧
        c'.lastMicros =
          (c.lastMicros + ts.length * (1000000 / c.customFrequencyHz)) % U32 ∧
        (lastTick c.lastMicros ts ≠
            (c.lastMicros + ts.length * (1000000 / c.customFrequencyHz)) % U32 →
          c'.lastMicros ≠ lastTick c.lastMicros ts)) ∧
    (∀ ts1 ts2 : List Nat, ts1.length = ts2.length →
      LEDPatternController.allEmit ts1 c = true → LEDPatternController.allEmit ts2 c = true →
      ∃ c1 log1 c2 log2, c.ticks ts1 = some (c1, log1) ∧ c.ticks ts2 = some (c2, log2) ∧
        c1.lastMicros = c2.lastMicros) ∧
    (c.customFrequencyHz ≠ 0 → ∀ ts : List Nat, ∃ c' log, c.ticks ts = some (c', log) ∧
      c'.lastMicros =
        (c.lastMicros + log.length * (1000000 / c.customFrequencyHz)) % U32) := by
  have hlt : c.lastMicros < U32 := hr.2.2.1
  have key : ∀ ts : List Nat, LEDPatternController.allEmit ts c = true →
      ∃ c' log, c.ticks ts = some (c', log) ∧ log.length = ts.length ∧
        c'.lastMicros =
          (c.lastMicros + ts.length * (1000000 / c.customFrequencyHz)) % U32 := by
    intro ts hall
    cases ts with
    | nil =>
      refine ⟨c, [], rfl, rfl, ?_⟩
      simp [Nat.mod_eq_of_lt hlt]
    | cons now rest =>
      have hf := allEmit_cons_freq_ne_zero now rest c hall
      obtain ⟨c', log, hrun, _, hall', hlast⟩ := ticks_lastMicros (now :: rest) c hf hlt
      refine ⟨c', log, hrun, hall' hall, ?_⟩
      rw [hlast, hall' hall]
  refine ⟨?_, ?_, ?_⟩
  · intro ts hall
    obtain ⟨c', log, hrun, hlen, hlast⟩ := key ts hall
    refine ⟨c', log, hrun, hlen, hlast, ?_⟩
    intro hne heq
    exact hne (heq ▸ hlast)
  · intro ts1 ts2 hlen h1 h2
    obtain ⟨c1, log1, hrun1, _, hlast1⟩ := key ts1 h1
    obtain ⟨c2, log2, hrun2, _, hlast2⟩ := key ts2 h2
    exact ⟨c1, log1, c2, log2, hrun1, hrun2, by rw [hlast1, hlast2, hlen]⟩
  · intro hf ts
    obtain ⟨c', log, hrun, _, _, hlast⟩ := ticks_lastMicros ts c hf hlt
    exact ⟨c', log, hrun, hlast⟩

/-- Witness of C2: three late emitting calls after the constructor end with
`lastMicros = 1500000`, not with the last reading `1600000`. -/
theorem drift_bound_witness :
    ∃ c' log, (LEDPatternController.ctor 2 1000 0 0).1.ticks [700000, 1200000, 1600000] =
        some (c', log) ∧ log.length = 3 ∧ c'.lastMicros = 1500000 ∧
      c'.lastMicros ≠ 1600000 := by
  obtain ⟨c', log, hrun, hlen, hlast, hne⟩ :=
    (drift_bound (LEDPatternController.ctor 2 1000 0 0).1
      (by simp [InRange, LEDPatternController.ctor, U32])).1 [700000, 1200000, 1600000]
      (by decide)
  refine ⟨c', log, hrun, hlen, ?_, ?_⟩
  · rw [hlast]
    decide
  · exact hne (by decide)

/-! ## Series of ticks: the emitted stream -/

theorem cyclicLevels_succ (p : List Char) (i n : Nat) :
    cyclicLevels p i (n + 1) =
      bitLevel (charAt p (i % p.length)) :: cyclicLevels p (i + 1) n := by
  unfold cyclicLevels
  rw [List.range_succ_eq_map, List.map_cons, List.map_map]
  congr 1
  apply List.map_congr_left
  intro j _
  simp only [Function.comp, Nat.succ_eq_add_one]
  rw [show i + (j + 1) = i + 1 + j by omega]

theorem cyclicLevels_mod (p : List Char) (i n : Nat) :
    cyclicLevels p (i % p.length) n = cyclicLevels p i n := by
  unfold cyclicLevels
  apply List.map_congr_left
  intro j _
  rw [Nat.mod_add_mod]

theorem cyclicLevels_length (p : List Char) (i n : Nat) : (cyclicLevels p i n).length = n := by
  simp [cyclicLevels]

theorem cyclicLevels_take (p : List Char) (i m n : Nat) (h : m ≤ n) :
    (cyclicLevels p i n).take m = cyclicLevels p i m := by
  unfold cyclicLevels
  rw [← List.map_take, List.take_range, Nat.min_eq_left h]

theorem map_charAt_range (p : List Char) :
    (List.range p.length).map (fun j => charAt p j) = p := by
  apply List.ext_getElem
  · simp
  · intro n h1 h2
    rw [List.getElem_map, List.getElem_range]
    unfold charAt
    exact List.getD_eq_getElem _ _ h2

theorem cyclicLevels_repeat (p : List Char) (k : Nat) :
    cyclicLevels p 0 (k * p.length) = repeatedLevels p k := by
  induction k with
  | zero => simp [cyclicLevels, repeatedLevels]
  | succ k ih =>
    have hsplit : cyclicLevels p 0 ((k + 1) * p.length) =
        cyclicLevels p 0 (k * p.length) ++ p.map bitLevel := by
      unfold cyclicLevels
      rw [Nat.succ_mul, List.range_add, List.map_append, List.map_map]
      congr 1
      conv_rhs => rw [← map_charAt_range p, List.map_map]
      apply List.map_congr_left
      intro j hj
      have hj' : j < p.length := List.mem_range.mp hj
      simp only [Function.comp, Nat.zero_add]
      rw [Nat.mul_add_mod_of_lt hj']
    rw [hsplit, ih]
    unfold repeatedLevels
    rw [List.replicate_succ', List.flatten_append, List.map_append]
    simp

theorem lastTick_cons (prev now : Nat) (rest : List Nat) :
    lastTick prev (now :: rest) = lastTick now rest :=
  List.getLastD_cons prev now rest

theorem ticks_cadence (I gap : Nat) (hI : 1 ≤ I) (hgap : gap ≤ I) (ts : List Nat) :
    ∀ (c : LEDPatternController) (prev i : Nat),
      c.customFrequencyHz ≠ 0 → 1000000 / c.customFrequencyHz = I →
      c.currentPattern.length < U32 →
      i < c.currentPattern.length → c.currentIndex = (i : Int) →
      c.lastMicros ≤ prev → prev < c.lastMicros + I →
      List.Chain (fun a b => a ≤ b ∧ b ≤ a + gap) prev ts → (∀ t ∈ ts, t < U32) →
      ∃ c' log, c.ticks ts = some (c', log) ∧
        c'.lastMicros = c.lastMicros + log.length * I ∧
        c'.lastMicros ≤ lastTick prev ts ∧ lastTick prev ts < c'.lastMicros + I ∧
        log.map Prod.snd = cyclicLevels c.currentPattern i log.length ∧
        c'.currentIndex = (((i + log.length) % c.currentPattern.length : Nat) : Int) ∧
        c'.currentPattern = c.currentPattern ∧
        c'.customFrequencyHz = c.customFrequencyHz := by
  induction ts with
  | nil =>
    intro c prev i _ _ _ hi hidx hle hlt _ _
    refine ⟨c, [], rfl, by simp, hle, hlt, by simp [cyclicLevels], ?_, rfl, rfl⟩
    simp [hidx, Nat.mod_eq_of_lt hi]
  | cons now rest ih =>
    intro c prev i hf hIeq hlen hi hidx hle hlt hchain hbound
    rw [List.chain_cons] at hchain
    obtain ⟨⟨hpn, hng⟩, hchain'⟩ := hchain
    have hnow : now < U32 := hbound now (List.mem_cons_self now rest)
    have hbound' : ∀ t ∈ rest, t < U32 := fun t ht => hbound t (List.mem_cons_of_mem now ht)
    have hsub : u32Sub now c.lastMicros = now - c.lastMicros := u32Sub_of_le (by omega) hnow
    rcases executePattern_cases now c hf with ⟨h, hcase⟩ | ⟨c1, h, hp, hd, hl1, hi1, hp1, hf1⟩
    · have hidle : now < c.lastMicros + I := by
        rcases hcase with hemp | hnd
        · rw [hemp] at hi
          simp at hi
        · rw [hsub, hIeq] at hnd
          omega
      obtain ⟨c', log, hrun, hlast, hlo, hhi, hlog, hidx', hp', hf'⟩ :=
        ih c now i hf hIeq hlen hi hidx (by omega) hidle hchain' hbound'
      refine ⟨c', log, ?_, hlast, ?_, ?_, hlog, hidx', hp', hf'⟩
      · rw [ticks_cons_idle now rest c h]
        exact hrun
      · rw [lastTick_cons]
        exact hlo
      · rw [lastTick_cons]
        exact hhi
    · rw [hsub, hIeq] at hd
      rw [hIeq] at hl1
      have hl1' : c1.lastMicros = c.lastMicros + I := by
        rw [hl1]
        exact u32Add_of_lt (by omega)
      have hU : (4294967296 : Nat) = U32 := rfl
      have hi1' : c1.currentIndex = (((i + 1) % c.currentPattern.length : Nat) : Int) := by
        rw [hi1, hidx]
        have hcast : ((i : Int) + 1) = ((i + 1 : Nat) : Int) := by omega
        rw [hcast, toUnsigned_natCast (by omega)]
        rfl
      have hmod : (i + 1) % c.currentPattern.length < c1.currentPattern.length := by
        rw [hp1]
        exact Nat.mod_lt _ (by omega)
      obtain ⟨c', log, hrun, hlast, hlo, hhi, hlog, hidx', hp', hf'⟩ :=
        ih c1 now ((i + 1) % c.currentPattern.length) (by rw [hf1]; exact hf)
          (by rw [hf1]; exact hIeq) (by rw [hp1]; exact hlen) hmod hi1' (by omega) (by omega)
          hchain' hbound'
      refine ⟨c', (now, bitLevel (charAt c.currentPattern (toUnsigned c.currentIndex))) :: log,
        ticks_cons_fire now rest c c1 c' _ log h hrun, ?_, ?_, ?_, ?_, ?_, ?_, ?_⟩
      · rw [hlast, hl1']
        simp only [List.length_cons, Nat.succ_mul]
        omega
      · rw [lastTick_cons]
        exact hlo
      · rw [lastTick_cons]
        exact hhi
      · rw [List.map_cons, hlog, hp1, cyclicLevels_mod, List.length_cons, cyclicLevels_succ,
          hidx, toUnsigned_natCast (by omega), Nat.mod_eq_of_lt hi]
      · rw [hidx', hp1, List.length_cons, Nat.mod_add_mod]
        congr 2
        omega
      · rw [hp', hp1]
      · rw [hf', hf1]

/-- C1 as amended (emitted stream). Take a valid pattern `S`, a frequency `f`
in `[1, 100000]` and the state right after they were applied with a resync
at `t0` (`currentIndex = 0`, `lastMicros = t0`, interval
`I = 1000000 / f`). Every series of `executePattern` calls at non-decreasing
32-bit readings from `t0` on, with consecutive gaps of at most `gap ≤ I`
(half an interval in particular), runs to its end and writes exactly
`(T - t0) / I` levels, `T` being the last reading: they are the levels of
`S` read cyclically from its first character. So when the duration `T - t0`
covers `k` full cycles the first `k * len(S)` levels are `S` repeated `k`
times, and they are all the levels written when moreover the duration ends
before the next symbol is due (`T - t0 < k * len(S) * I + I`). -/
theorem pattern_stream (c : LEDPatternController) (t0 gap k : Nat) (ts : List Nat)
    (hr : InRange c) (hv : ValidPattern c.currentPattern)
    (hf : 1 ≤ c.customFrequencyHz ∧ c.customFrequencyHz ≤ 100000)
    (hi : c.currentIndex = 0) (hl : c.lastMicros = t0)
    (hgap : gap ≤ 1000000 / c.customFrequencyHz) (hcad : Cadence gap t0 ts) :
    ∃ c' log, c.ticks ts = some (c', log) ∧
      log.length = (lastTick t0 ts - t0) / (1000000 / c.customFrequencyHz) ∧
      log.map Prod.snd = cyclicLevels c.currentPattern 0 log.length ∧
      (k * c.currentPattern.length * (1000000 / c.customFrequencyHz) ≤ lastTick t0 ts - t0 →
        k * c.currentPattern.length ≤ log.length ∧
        (log.map Prod.snd).take (k * c.currentPattern.length) =
          repeatedLevels c.currentPattern k) ∧
      (k * c.currentPattern.length * (1000000 / c.customFrequencyHz) ≤ lastTick t0 ts - t0 →
        lastTick t0 ts - t0 <
          k * c.currentPattern.length * (1000000 / c.customFrequencyHz) +
            1000000 / c.customFrequencyHz →
        log.length = k * c.currentPattern.length ∧
        log.map Prod.snd = repeatedLevels c.currentPattern k) := by
  have hI : 1 ≤ 1000000 / c.customFrequencyHz := by
    rw [Nat.le_div_iff_mul_le (by omega)]
    omega
  have hlen : 0 < c.currentPattern.length := List.length_pos.mpr hv.1
  obtain ⟨c', log, hrun, hlast, hlo, hhi, hlog, _, _, _⟩ :=
    ticks_cadence (1000000 / c.customFrequencyHz) gap hI hgap ts c t0 0 (by omega) rfl
      hr.1 hlen (by rw [hi]; rfl) (by omega) (by omega) hcad.1 hcad.2
  rw [hl] at hlast
  generalize 1000000 / c.customFrequencyHz = I at *
  have hdiv : (lastTick t0 ts - t0) / I = log.length := by
    apply Nat.div_eq_of_lt_le
    · rw [hlast] at hlo
      omega
    · rw [hlast] at hhi
      rw [Nat.succ_mul]
      omega
  have hcover : k * c.currentPattern.length * I ≤ lastTick t0 ts - t0 →
      k * c.currentPattern.length ≤ log.length := by
    intro hk
    have h1 : k * c.currentPattern.length * I < (log.length + 1) * I := by
      rw [hlast] at hhi
      rw [Nat.succ_mul]
      omega
    have h2 := Nat.lt_of_mul_lt_mul_right h1
    omega
  refine ⟨c', log, hrun, hdiv.symm, hlog, ?_, ?_⟩
  · intro hk
    refine ⟨hcover hk, ?_⟩
    rw [hlog, cyclicLevels_take _ _ _ _ (hcover hk), cyclicLevels_repeat]
  · intro hk hk'
    have hle : log.length ≤ k * c.currentPattern.length := by
      have h1 : log.length * I < (k * c.currentPattern.length + 1) * I := by
        rw [hlast] at hlo
        rw [Nat.succ_mul]
        omega
      have h2 := Nat.lt_of_mul_lt_mul_right h1
      omega
    have heq : log.length = k * c.currentPattern.length := le_antisymm hle (hcover hk)
    refine ⟨heq, ?_⟩
    rw [hlog, heq, cyclicLevels_repeat]

/-- Witness of C1 as amended: the pattern `"10"` at 100 kHz (interval 10 us),
ticked every 5 us for one cycle of 20 us. -/
theorem pattern_stream_witness :
    ∃ c' log,
      LEDPatternController.ticks [5, 10, 15, 20]
        { (LEDPatternController.ctor 2 1000 0 0).1 with
          currentPattern := ['1', '0'], customFrequencyHz := 100000,
          useCustomFrequency := true } = some (c', log) ∧
      log.map Prod.snd = [PinLevel.HIGH, PinLevel.LOW] := by
  obtain ⟨c', log, hrun, _, _, _, hexact⟩ :=
    pattern_stream
      { (LEDPatternController.ctor 2 1000 0 0).1 with
        currentPattern := ['1', '0'], customFrequencyHz := 100000,
        useCustomFrequency := true } 0 5 1 [5, 10, 15, 20]
      (by simp [InRange, LEDPatternController.ctor, U32])
      ⟨by simp, by simp⟩ (by simp) rfl rfl (by decide)
      (by simp [Cadence, U32])
  exact ⟨c', log, hrun, (hexact (by decide) (by decide)).2⟩

/-- Counterexample to C1 as stated: the pattern `"10"` at 100 kHz (interval
10 us, one cycle 20 us), resynced at 0 and ticked every 5 us up to 30 us. The
duration covers one full cycle and not two, and three levels are written,
not `1 * len(S) = 2`. -/
theorem pattern_stream_counterexample :
    ¬ (∀ (c : LEDPatternController) (t0 k : Nat) (ts : List Nat),
        InRange c → ValidPattern c.currentPattern →
        1 ≤ c.customFrequencyHz ∧ c.customFrequencyHz ≤ 100000 →
        c.currentIndex = 0 → c.lastMicros = t0 →
        Cadence (1000000 / c.customFrequencyHz / 2) t0 ts →
        k * c.currentPattern.length * (1000000 / c.customFrequencyHz) ≤ lastTick t0 ts - t0 →
        ∃ c' log, c.ticks ts = some (c', log) ∧
          log.length = k * c.currentPattern.length ∧
          log.map Prod.snd = repeatedLevels c.currentPattern k) := by
  intro h
  obtain ⟨c', log, hrun, hlen, _⟩ :=
    h { (LEDPatternController.ctor 2 1000 0 0).1 with
        currentPattern := ['1', '0'], customFrequencyHz := 100000,
        useCustomFrequency := true } 0 1 [5, 10, 15, 20, 25, 30]
      (by simp [InRange, LEDPatternController.ctor, U32])
      ⟨by simp, by simp⟩ (by simp) rfl rfl
      (by simp [Cadence, U32]) (by decide)
  have hrun' :
      LEDPatternController.ticks [5, 10, 15, 20, 25, 30]
        { (LEDPatternController.ctor 2 1000 0 0).1 with
          currentPattern := ['1', '0'], customFrequencyHz := 100000,
          useCustomFrequency := true } =
      some ({ (LEDPatternController.ctor 2 1000 0 0).1 with
              currentPattern := ['1', '0'], customFrequencyHz := 100000,
              useCustomFrequency := true, currentIndex := 1, lastMicros := 30 },
            [(10, PinLevel.HIGH), (20, PinLevel.LOW), (30, PinLevel.HIGH)]) := by
    decide
  rw [hrun'] at hrun
  cases hrun
  simp at hlen

/-! ## The end-to-end example -/

theorem ticks_idle_append (seg rest : List Nat) (c : LEDPatternController)
    (hf : c.customFrequencyHz ≠ 0)
    (hseg : ∀ t ∈ seg, c.lastMicros ≤ t ∧ t < c.lastMicros + 1000000 / c.customFrequencyHz ∧
      t < U32) :
    c.ticks (seg ++ rest) = c.ticks rest := by
  induction seg with
  | nil => rfl
  | cons now seg' ih =>
    obtain ⟨h1, h2, h3⟩ := hseg now (List.mem_cons_self now seg')
    have hidle : c.executePattern now = some (c, []) :=
      LEDPatternController.executePattern_idle now c hf (by
        rw [u32Sub_of_le h1 h3]
        omega)
    rw [List.cons_append, ticks_cons_idle now _ c hidle]
    exact ih (fun t ht => hseg t (List.mem_cons_of_mem now ht))

theorem defaultState_fire (ledPin : Int) (interval t0 ms0 : Nat) (i j n m now : Nat)
    (lvl : PinLevel) (hi : i < 4) (hj : j = (i + 1) % 4) (hm : m = n + 500000)
    (hlvl : lvl = bitLevel (charAt ['1', '0', '1', '0'] i))
    (hnow : now < U32) (hdue : t0 + n + 500000 ≤ now) :
    LEDPatternController.executePattern now
      { (LEDPatternController.ctor ledPin interval t0 ms0).1 with
        currentIndex := (i : Int), lastMicros := t0 + n } =
    some ({ (LEDPatternController.ctor ledPin interval t0 ms0).1 with
            currentIndex := (j : Int), lastMicros := t0 + m },
          [lvl]) := by
  subst hj hm hlvl
  rw [LEDPatternController.executePattern_fire now _ (by simp [LEDPatternController.ctor])
    (by simp [LEDPatternController.ctor])
    (by
      simp only [LEDPatternController.ctor]
      rw [u32Sub_of_le (by omega) hnow]
      omega)]
  have hcast : ((i : Int) + 1) = ((i + 1 : Nat) : Int) := by omega
  have hadd : u32Add (t0 + n) (1000000 / 2) = t0 + (n + 500000) := by
    rw [u32Add_of_lt (by omega)]
    omega
  simp only [LEDPatternController.ctor, hcast, toUnsigned_natCast (show i + 1 < 4294967296 by omega),
    toUnsigned_natCast (show i < 4294967296 by omega), hadd, List.length_cons, List.length_nil]
  rfl

theorem defaultState_idle (ledPin : Int) (interval t0 ms0 : Nat) (i n lo len : Nat)
    (rest : List Nat) (hlo : n ≤ 1000 * lo) (hhi : 1000 * (lo + len) < n + 500001)
    (hU : t0 + 1000 * (lo + len) < U32 + 1000) :
    LEDPatternController.ticks ((List.range' lo len).map (fun j => t0 + 1000 * j) ++ rest)
      { (LEDPatternController.ctor ledPin interval t0 ms0).1 with
        currentIndex := (i : Int), lastMicros := t0 + n } =
    LEDPatternController.ticks rest
      { (LEDPatternController.ctor ledPin interval t0 ms0).1 with
        currentIndex := (i : Int), lastMicros := t0 + n } := by
  apply ticks_idle_append
  · simp [LEDPatternController.ctor]
  · intro t ht
    obtain ⟨j, hj, rfl⟩ := List.mem_map.mp ht
    have hj' := List.mem_range'_1.mp hj
    simp only [LEDPatternController.ctor]
    refine ⟨?_, ?_, ?_⟩
    · omega
    · omega
    · omega

theorem range'_split (s m n : Nat) :
    List.range' s (m + 1 + n) = List.range' s m ++ (s + m) :: List.range' (s + m + 1) n := by
  rw [show m + 1 + n = (1 + n) + m by omega, ← List.range'_append s m (1 + n) 1,
    show 1 + n = n + 1 by omega, List.range'_succ]
  simp

theorem everyMillisecond_split (t0 : Nat) :
    everyMillisecond t0 2100 =
      (List.range' 0 500).map (fun j => t0 + 1000 * j) ++ (t0 + 500000) ::
      ((List.range' 501 499).map (fun j => t0 + 1000 * j) ++ (t0 + 1000000) ::
      ((List.range' 1001 499).map (fun j => t0 + 1000 * j) ++ (t0 + 1500000) ::
      ((List.range' 1501 499).map (fun j => t0 + 1000 * j) ++ (t0 + 2000000) ::
      ((List.range' 2001 100).map (fun j => t0 + 1000 * j) ++ [])))) := by
  have h1 : List.range' 0 2101 = List.range' 0 500 ++ 500 :: List.range' 501 1600 :=
    range'_split 0 500 1600
  have h2 : List.range' 501 1600 = List.range' 501 499 ++ 1000 :: List.range' 1001 1100 :=
    range'_split 501 499 1100
  have h3 : List.range' 1001 1100 = List.range' 1001 499 ++ 1500 :: List.range' 1501 600 :=
    range'_split 1001 499 600
  have h4 : List.range' 1501 600 = List.range' 1501 499 ++ 2000 :: List.range' 2001 100 :=
    range'_split 1501 499 100
  unfold everyMillisecond
  rw [h1, h2, h3, h4]
  simp only [List.map_append, List.map_cons, List.map_nil, List.append_nil]

theorem ticks_example (ledPin : Int) (interval t0 ms0 : Nat) (h : t0 + 2100000 < U32) :
    (LEDPatternController.ctor ledPin interval t0 ms0).1.ticks (everyMillisecond t0 2100) =
      some ({ (LEDPatternController.ctor ledPin interval t0 ms0).1 with
              currentIndex := ((0 : Nat) : Int), lastMicros := t0 + 2000000 },
            [(t0 + 500000, PinLevel.HIGH), (t0 + 1000000, PinLevel.LOW),
             (t0 + 1500000, PinLevel.HIGH), (t0 + 2000000, PinLevel.LOW)]) := by
  have hU : U32 = 4294967296 := rfl
  have hstart : (LEDPatternController.ctor ledPin interval t0 ms0).1 =
      { (LEDPatternController.ctor ledPin interval t0 ms0).1 with
        currentIndex := ((0 : Nat) : Int), lastMicros := t0 + 0 } := rfl
  rw [everyMillisecond_split, hstart]
  rw [defaultState_idle ledPin interval t0 ms0 0 0 0 500 _ (by omega) (by omega) (by omega)]
  refine ticks_cons_fire _ _ _ _ _ _ _
    (defaultState_fire ledPin interval t0 ms0 0 1 0 500000 (t0 + 500000) PinLevel.HIGH
      (by omega) rfl rfl (by decide) (by omega) (by omega)) ?_
  rw [defaultState_idle ledPin interval t0 ms0 1 500000 501 499 _ (by omega) (by omega)
    (by omega)]
  refine ticks_cons_fire _ _ _ _ _ _ _
    (defaultState_fire ledPin interval t0 ms0 1 2 500000 1000000 (t0 + 1000000) PinLevel.LOW
      (by omega) rfl rfl (by decide) (by omega) (by omega)) ?_
  rw [defaultState_idle ledPin interval t0 ms0 2 1000000 1001 499 _ (by omega) (by omega)
    (by omega)]
  refine ticks_cons_fire _ _ _ _ _ _ _
    (defaultState_fire ledPin interval t0 ms0 2 3 1000000 1500000 (t0 + 1500000) PinLevel.HIGH
      (by omega) rfl rfl (by decide) (by omega) (by omega)) ?_
  rw [defaultState_idle ledPin interval t0 ms0 3 1500000 1501 499 _ (by omega) (by omega)
    (by omega)]
  refine ticks_cons_fire _ _ _ _ _ _ _
    (defaultState_fire ledPin interval t0 ms0 3 0 1500000 2000000 (t0 + 2000000) PinLevel.LOW
      (by omega) rfl rfl (by decide) (by omega) (by omega)) ?_
  rw [defaultState_idle ledPin interval t0 ms0 0 2000000 2001 100 _ (by omega) (by omega)
    (by omega)]
  rfl

/-- C9 as amended (end-to-end example). The constructor, run at clock reading
`t0`, sets the pattern `"1010"` and 2 Hz, an interval of 500000 us. Calling
`executePattern` every millisecond for 2.1 seconds from then on writes the
bits 1, 0, 1, 0 as `HIGH, LOW, HIGH, LOW` (LED off, on, off, on) at exactly
`t0 + 500 ms`, `t0 + 1000 ms`, `t0 + 1500 ms` and `t0 + 2000 ms`: each bit is
written one interval after the previous deadline, the first one interval
after `t0`. At the end `lastMicros = t0 + 2000 ms` with the cursor back at 0,
and the 5th bit is pending until `t0 + 2500 ms`, when `HIGH` is written. -/
theorem end_to_end_example (ledPin : Int) (interval t0 ms0 : Nat)
    (h : t0 + 2100000 < U32) :
    (LEDPatternController.ctor ledPin interval t0 ms0).1.currentPattern = ['1', '0', '1', '0'] ∧
    1000000 / (LEDPatternController.ctor ledPin interval t0 ms0).1.customFrequencyHz = 500000 ∧
    ∃ c', (LEDPatternController.ctor ledPin interval t0 ms0).1.ticks (everyMillisecond t0 2100) =
        some (c', [(t0 + 500000, PinLevel.HIGH), (t0 + 1000000, PinLevel.LOW),
                   (t0 + 1500000, PinLevel.HIGH), (t0 + 2000000, PinLevel.LOW)]) ∧
      c'.lastMicros = t0 + 2000000 ∧ c'.currentIndex = 0 ∧
      ∀ now, t0 + 2100000 ≤ now → now < U32 →
        ((∃ c2 lvl, c'.executePattern now = some (c2, [lvl])) ↔ t0 + 2500000 ≤ now) ∧
        (t0 + 2500000 ≤ now → ∃ c2, c'.executePattern now = some (c2, [PinLevel.HIGH])) := by
  have hfreq : (LEDPatternController.ctor ledPin interval t0 ms0).1.customFrequencyHz = 2 := rfl
  refine ⟨rfl, by rw [hfreq], _, ticks_example ledPin interval t0 ms0 h, rfl, rfl, ?_⟩
  intro now h1 h2
  have hfire : t0 + 2500000 ≤ now → ∃ c2,
      LEDPatternController.executePattern now
        { (LEDPatternController.ctor ledPin interval t0 ms0).1 with
          currentIndex := ((0 : Nat) : Int), lastMicros := t0 + 2000000 } =
        some (c2, [PinLevel.HIGH]) := fun hd =>
    ⟨_, defaultState_fire ledPin interval t0 ms0 0 1 2000000 2500000 now PinLevel.HIGH
      (by omega) rfl rfl (by decide) h2 (by omega)⟩
  refine ⟨⟨?_, ?_⟩, hfire⟩
  · rintro ⟨c2, lvl, hx⟩
    by_contra hnd
    rw [LEDPatternController.executePattern_idle now _ (by simp [LEDPatternController.ctor])
      (by
        simp only [LEDPatternController.ctor]
        rw [u32Sub_of_le (by omega) h2]
        omega)] at hx
    simp at hx
  · intro hd
    obtain ⟨c2, hc2⟩ := hfire hd
    exact ⟨c2, _, hc2⟩

/-- Witness of C9 as amended: the constructor run at clock reading 0. -/
theorem end_to_end_example_witness :
    ∃ c', (LEDPatternController.ctor 2 1000 0 0).1.ticks (everyMillisecond 0 2100) =
      some (c', [(500000, PinLevel.HIGH), (1000000, PinLevel.LOW),
                 (1500000, PinLevel.HIGH), (2000000, PinLevel.LOW)]) := by
  obtain ⟨_, _, c', hrun, _⟩ := end_to_end_example 2 1000 0 0 (by decide)
  exact ⟨c', by simpa using hrun⟩

/-- Counterexample to C9 as stated: with the constructor run at clock reading
0 and a tick every millisecond for 2.1 seconds, no level is written during
the first 499 ms, and the four levels are written at 500 ms, 1000 ms,
1500 ms and 2000 ms, not at about 0, 500 ms, 1000 ms and 1500 ms; the write
at 2000 ms is the 4th bit, not a pending 5th one. -/
theorem end_to_end_example_counterexample :
    (LEDPatternController.ctor 2 1000 0 0).1.ticks (everyMillisecond 0 499) =
      some ((LEDPatternController.ctor 2 1000 0 0).1, []) ∧
    ∃ c' log, (LEDPatternController.ctor 2 1000 0 0).1.ticks (everyMillisecond 0 2100) =
        some (c', log) ∧
      log.map Prod.fst = [500000, 1000000, 1500000, 2000000] ∧
      log.map Prod.fst ≠ [0, 500000, 1000000, 1500000] := by
  constructor
  · have hstart : (LEDPatternController.ctor 2 1000 0 0).1 =
        { (LEDPatternController.ctor 2 1000 0 0).1 with
          currentIndex := ((0 : Nat) : Int), lastMicros := 0 + 0 } := rfl
    have hsched : everyMillisecond 0 499 =
        (List.range' 0 500).map (fun j => 0 + 1000 * j) ++ [] := by
      simp [everyMillisecond]
    rw [hsched]
    conv_lhs => rw [hstart]
    rw [defaultState_idle 2 1000 0 0 0 0 0 500 [] (by omega) (by omega) (by decide)]
    rfl
  · have hrun := ticks_example 2 1000 0 0 (by decide)
    refine ⟨_, _, hrun, ?_, ?_⟩
    · simp
    · simp

/-! ## Division by zero is unreachable -/

theorem setCustomFrequency_value (frequencyHz now ms : Nat) (c : LEDPatternController) :
    (c.setCustomFrequency frequencyHz now ms).customFrequencyHz =
      (if frequencyHz > 0 then frequencyHz else 2) ∧
    (c.setCustomFrequency frequencyHz now ms).useCustomFrequency =
      decide (frequencyHz > 0) := by
  unfold LEDPatternController.setCustomFrequency
  by_cases h : frequencyHz > 0
  · rw [if_pos h, if_pos h]
    exact ⟨rfl, (decide_eq_true h).symm⟩
  · rw [if_neg h, if_neg h]
    exact ⟨rfl, (decide_eq_false h).symm⟩

theorem setCustomFrequency_default_freq (frequencyHz now ms : Nat) (c : LEDPatternController)
    (h : (c.setCustomFrequency frequencyHz now ms).useCustomFrequency = false) :
    (c.setCustomFrequency frequencyHz now ms).customFrequencyHz = 2 := by
  obtain ⟨hv, hu⟩ := setCustomFrequency_value frequencyHz now ms c
  rw [hu] at h
  rw [hv]
  have hz : ¬ frequencyHz > 0 := by simpa using h
  rw [if_neg hz]

theorem handleFrequencyUpdate_default_freq (arg : Option Int) (now ms : Nat)
    (c : LEDPatternController)
    (hc : c.useCustomFrequency = false → c.customFrequencyHz = 2)
    (h : (c.handleFrequencyUpdate arg now ms).1.useCustomFrequency = false) :
    (c.handleFrequencyUpdate arg now ms).1.customFrequencyHz = 2 := by
  unfold LEDPatternController.handleFrequencyUpdate at h ⊢
  cases arg with
  | none => exact hc h
  | some parsed =>
    simp only at h ⊢
    split
    · rename_i hr
      rw [if_pos hr] at h
      exact setCustomFrequency_default_freq _ _ _ _ h
    · rename_i hr
      rw [if_neg hr] at h
      split
      · rename_i hz
        rw [if_pos hz] at h
        exact setCustomFrequency_default_freq _ _ _ _ h
      · rename_i hz
        rw [if_neg hz] at h
        exact hc h

theorem Call.apply_default_freq (e : Call) (c c' : LEDPatternController)
    (hc : c.useCustomFrequency = false → c.customFrequencyHz = 2)
    (he : e.apply c = some c') :
    c'.useCustomFrequency = false → c'.customFrequencyHz = 2 := by
  unfold Call.apply at he
  split at he
  · cases hx : c.executePattern e.now with
    | none => simp [hx] at he
    | some r =>
      obtain ⟨c1, out⟩ := r
      simp [hx] at he
      subst he
      obtain ⟨_, hf, hu⟩ := executePattern_frame _ _ _ _ hx
      rw [hf, hu]
      exact hc
  · cases he
    obtain ⟨hf, hu⟩ := handlePatternUpdate_freq _ e.now c
    rw [hf, hu]
    exact hc
  · cases he
    exact handleFrequencyUpdate_default_freq _ _ _ _ hc
  · cases he
    exact setCustomFrequency_default_freq _ _ _ _
  · cases he
    exact hc

theorem runCalls_default_freq (calls : List Call) :
    ∀ c c' : LEDPatternController,
      (c.useCustomFrequency = false → c.customFrequencyHz = 2) →
      runCalls calls c = some c' →
      (c'.useCustomFrequency = false → c'.customFrequencyHz = 2) := by
  induction calls with
  | nil =>
    intro c c' hc hr
    simp [runCalls] at hr
    subst hr
    exact hc
  | cons e rest ih =>
    intro c c' hc hr
    unfold runCalls at hr
    cases he : e.apply c with
    | none => simp [he] at hr
    | some c1 =>
      simp only [he] at hr
      exact ih c1 c' (Call.apply_default_freq e c c1 hc he) hr

/-- C11 (division by zero is unreachable). Every series of public calls
(`executePattern`, `handlePatternUpdate`, `handleFrequencyUpdate`,
`resetTimingSync`, and `setCustomFrequency` called directly with any value, 0
and values above 100000 included) runs to its end from the state the
constructor builds, and in the state it reaches `customFrequencyHz ≥ 1`, so
the division `1000000 / customFrequencyHz` of `executePattern` is defined
and the call does not trap at any clock reading; and when
`useCustomFrequency` is false, `customFrequencyHz = 2`. `setCustomFrequency`
itself does no range check: it stores any value above 0 unchanged and
stores 2 for the value 0. -/
theorem division_by_zero_unreachable (calls : List Call) (ledPin : Int)
    (interval t0 ms0 : Nat) :
    (∃ c, runCalls calls (LEDPatternController.ctor ledPin interval t0 ms0).1 = some c ∧
      1 ≤ c.customFrequencyHz ∧
      (c.useCustomFrequency = false → c.customFrequencyHz = 2) ∧
      ∀ now, (c.executePattern now).isSome = true) ∧
    (∀ (c : LEDPatternController) (frequencyHz now ms : Nat),
      (c.setCustomFrequency frequencyHz now ms).customFrequencyHz =
        (if frequencyHz > 0 then frequencyHz else 2) ∧
      1 ≤ (c.setCustomFrequency frequencyHz now ms).customFrequencyHz) := by
  constructor
  · obtain ⟨c, hc, hf⟩ := runCalls_total calls _ (ctor_freq_ne_zero ledPin interval t0 ms0)
    refine ⟨c, hc, by omega, ?_, ?_⟩
    · exact runCalls_default_freq calls _ c (fun _ => rfl) hc
    · intro now
      exact LEDPatternController.executePattern_isSome now c (Or.inl hf)
  · intro c frequencyHz now ms
    have hne := setCustomFrequency_freq_ne_zero frequencyHz now ms c
    exact ⟨(setCustomFrequency_value frequencyHz now ms c).1, by omega⟩

/-- Witness of C11: `setCustomFrequency` called directly with 200000 and then
with 0, each followed by a tick; the series ends in default mode at 2 Hz. -/
theorem division_by_zero_unreachable_witness :
    ∃ c, runCalls
        [⟨Op.setCustomFrequency 200000, 1000, 1⟩, ⟨Op.executePattern, 1005, 1⟩,
         ⟨Op.setCustomFrequency 0, 2000, 2⟩, ⟨Op.executePattern, 502000, 502⟩]
        (LEDPatternController.ctor 2 1000 0 0).1 = some c ∧
      1 ≤ c.customFrequencyHz ∧ (c.useCustomFrequency = false → c.customFrequencyHz = 2) := by
  obtain ⟨c, hc, h1, h2, _⟩ := (division_by_zero_unreachable
    [⟨Op.setCustomFrequency 200000, 1000, 1⟩, ⟨Op.executePattern, 1005, 1⟩,
     ⟨Op.setCustomFrequency 0, 2000, 2⟩, ⟨Op.executePattern, 502000, 502⟩] 2 1000 0 0).1
  exact ⟨c, hc, h1, h2⟩

end LEDControl
